import Mathlib

/-!
Shallow embedding of `src/rt_gene/scripts/estimate_gaze.py` (class
`GazeEstimatorROS`).  Angles and timestamps are modelled as rationals;
images as a free algebra over the image operations the script performs;
the external collaborators (tf lookup, the CNN estimator, the euler
helpers) as explicit parameters.  State that the Python code mutates
(the per-subject deque registry `gaze_buffer_c`) is passed explicitly.
-/

/-- A raw gaze estimate: the 2-vector `[theta, phi]` returned by
`estimate_gaze_twoeyes` (and the shape of the smoothed output). -/
structure RawGaze where
  theta : ℚ
  phi : ℚ
deriving DecidableEq

/-- Image values, as a free algebra over the operations the script applies:
`input_from_image`, `visualize_eye_result`, and `np.concatenate` along
axis 1 (`hconcat`) and axis 0 (`vconcat`). -/
inductive Img where
  | raw : Nat → Img
  | input : Img → Img
  | vis : Img → RawGaze → Img
  | hconcat : Img → Img → Img
  | vconcat : Img → Img → Img
deriving DecidableEq

abbrev SubjectId := Nat

/-- `self.average_weights = np.array([0.1, 0.125, 0.175, 0.2, 0.4])` (line 50). -/
def average_weights : List ℚ := [0.1, 0.125, 0.175, 0.2, 0.4]

/-- Appending to a `collections.deque(maxlen=maxlen)`: the element goes to
the tail and, if the length would exceed `maxlen`, elements are dropped
from the head. -/
def deque_append (maxlen : Nat) (buf : List α) (x : α) : List α :=
  (buf ++ [x]).drop ((buf ++ [x]).length - maxlen)

/-- `np.average(xs, weights=ws)` on one component: `Σ wi·xi / Σ wi`. -/
def np_weighted_average (ws xs : List ℚ) : ℚ :=
  (List.zipWith (· * ·) ws xs).sum / ws.sum

/-- `np.average(np.array(buf), axis=0, weights=ws)`: the weighted average
taken componentwise over theta and phi. -/
def np_average_gaze (ws : List ℚ) (buf : List RawGaze) : RawGaze :=
  ⟨np_weighted_average ws (buf.map RawGaze.theta),
   np_weighted_average ws (buf.map RawGaze.phi)⟩

/-- Lines 83–86 and 91: append the estimate to the subject's deque and, when
`len(self.average_weights) == len(self.gaze_buffer_c[subject_id])`, compute
the weighted average that the method returns. -/
def buffer_push_emit (buf : List RawGaze) (est : RawGaze) :
    List RawGaze × Option RawGaze :=
  let b := deque_append 5 buf est
  if average_weights.length = b.length then
    (b, some (np_average_gaze average_weights b))
  else
    (b, none)

/-- Outcome of `tf_listener.getLatestCommonTime` + `lookupTransform`:
either a tf exception (`LookupException`, `ConnectivityException`,
`ExtrapolationException`, `tf.Exception`) or the latest common time `lct`
together with the head rotation quaternion. -/
inductive TfLookup where
  | err : TfLookup
  | found : ℚ → ℚ × ℚ × ℚ × ℚ → TfLookup
deriving DecidableEq

/-- The external collaborators the script calls: the euler helpers from
`gaze_tools` and the CNN estimator inherited from `GazeEstimatorBase`. -/
structure Externals where
  limit_yaw : ℚ × ℚ × ℚ × ℚ → ℚ × ℚ × ℚ
  get_phi_theta_from_euler : ℚ × ℚ × ℚ → ℚ × ℚ
  estimate_gaze_twoeyes : Img → Img → ℚ × ℚ → RawGaze

/-- Observable outcome of one `compute_eye_gaze_estimation` call: the
subject's buffer after the call, the value the method returns, the trace of
`estimate_gaze_twoeyes` invocations (arguments in call order) and the gaze
values handed to `publish_gaze`. -/
structure ComputeResult where
  buffer : List RawGaze
  ret : Option RawGaze
  estimator_calls : List (Img × Img × (ℚ × ℚ))
  published_gaze : List RawGaze
deriving DecidableEq

/-- Lines 60–98, `compute_eye_gaze_estimation`.  A tf exception during the
lookup skips the subject (caught at line 93, `return None`).  Otherwise the
gate `(timestamp - lct).to_sec() < 0.25` decides; on reject the method
returns at line 79.  On accept the estimator is called as
`estimate_gaze_twoeyes(input_l, input_r, np.array([theta_head, phi_head]))`,
the result is appended to the deque, and when the window is full the
weighted average is published and returned.  `publish_ok = false` models
`publish_gaze` raising the closed-topic `ROSException`, which is caught at
line 95 so that the method falls through to `return None`. -/
def compute_eye_gaze_estimation (ext : Externals) (publish_ok : Bool)
    (lookup : TfLookup) (timestamp : ℚ) (input_r input_l : Img)
    (buffer : List RawGaze) : ComputeResult :=
  match lookup with
  | TfLookup.err => ⟨buffer, none, [], []⟩
  | TfLookup.found lct rot =>
    if timestamp - lct < 0.25 then
      let pt := ext.get_phi_theta_from_euler (ext.limit_yaw rot)
      let est_gaze_c := ext.estimate_gaze_twoeyes input_l input_r (pt.2, pt.1)
      let r := buffer_push_emit buffer est_gaze_c
      match r.2 with
      | some est_gaze_c_med =>
        if publish_ok then
          ⟨r.1, some est_gaze_c_med, [(input_l, input_r, (pt.2, pt.1))],
           [est_gaze_c_med]⟩
        else
          ⟨r.1, none, [(input_l, input_r, (pt.2, pt.1))], []⟩
      | none => ⟨r.1, none, [(input_l, input_r, (pt.2, pt.1))], []⟩
    else ⟨buffer, none, [], []⟩

/-- The per-subject buffer registry `self.gaze_buffer_c`, modelled as an
association list in insertion order. -/
abbrev Registry := List (SubjectId × List RawGaze)

/-- `self.gaze_buffer_c[subject_id]` read (dict keys are unique, so the
first matching entry is the entry). -/
def reg_lookup (reg : Registry) (id : SubjectId) : Option (List RawGaze) :=
  match reg with
  | [] => none
  | p :: rest => if p.1 = id then some p.2 else reg_lookup rest id

/-- `self.gaze_buffer_c[subject_id] = b` write: replace the entry for the
key, or append a new entry in insertion order. -/
def reg_set (reg : Registry) (id : SubjectId) (b : List RawGaze) : Registry :=
  match reg with
  | [] => [(id, b)]
  | p :: rest => if p.1 = id then (id, b) :: rest else p :: reg_set rest id b

/-- Lines 111–112: `if subject_id not in self.gaze_buffer_c.keys():
self.gaze_buffer_c[subject_id] = collections.deque(maxlen=5)`. -/
def ensure_buffer (reg : Registry) (id : SubjectId) : Registry :=
  if (reg_lookup reg id).isNone then reg_set reg id [] else reg

/-- One subject's images in the incoming batch. -/
structure SubjectImages where
  right : Img
  left : Img
deriving DecidableEq

/-- Observable outcome of one `image_callback`: the registry afterwards, the
per-subject visualization strips appended to the composite image (in
append order), the gaze values published with their subject, and the trace
of estimator invocations with their subject. -/
structure CallbackResult where
  reg : Registry
  gaze_imgs : List (SubjectId × Img)
  published_gaze : List (SubjectId × RawGaze)
  estimator_calls : List (SubjectId × (Img × Img × (ℚ × ℚ)))
deriving DecidableEq

/-- The body of the `for subject_id, s in subjects_dict.items()` loop
(lines 110–125): lazily create the subject's deque, preprocess the two
crops, run `compute_eye_gaze_estimation`, and when it returned an estimate
append the annotated `hconcat(right, left)` strip to the composite. -/
def image_callback_step (ext : Externals) (publish_ok : Bool)
    (lookup : SubjectId → TfLookup) (timestamp : ℚ)
    (acc : CallbackResult) (entry : SubjectId × SubjectImages) :
    CallbackResult :=
  let subject_id := entry.1
  let s := entry.2
  let reg0 := ensure_buffer acc.reg subject_id
  let buffer := (reg_lookup reg0 subject_id).getD []
  let input_r := Img.input s.right
  let input_l := Img.input s.left
  let out := compute_eye_gaze_estimation ext publish_ok (lookup subject_id)
      timestamp input_r input_l buffer
  { reg := reg_set reg0 subject_id out.buffer
    gaze_imgs :=
      match out.ret with
      | some g =>
          acc.gaze_imgs ++ [(subject_id, Img.hconcat (Img.vis s.right g) (Img.vis s.left g))]
      | none => acc.gaze_imgs
    published_gaze := acc.published_gaze ++ out.published_gaze.map (fun g => (subject_id, g))
    estimator_calls := acc.estimator_calls ++ out.estimator_calls.map (fun c => (subject_id, c)) }

/-- Lines 100–129, `image_callback`: fold the per-subject loop over the
batch. -/
def image_callback (ext : Externals) (publish_ok : Bool)
    (lookup : SubjectId → TfLookup) (timestamp : ℚ)
    (subjects : List (SubjectId × SubjectImages)) (reg : Registry) :
    CallbackResult :=
  subjects.foldl (image_callback_step ext publish_ok lookup timestamp)
    ⟨reg, [], [], []⟩

/-- Lines 121–129: the composite image published at the end of the
callback, `none` when no subject emitted. -/
def composite_image : List (SubjectId × Img) → Option Img
  | [] => none
  | (_, i) :: rest => some (rest.foldl (fun a p => Img.vconcat a p.2) i)

/-- Feeding a sequence of raw estimates through the push-and-emit step of
lines 83–91, collecting the emitted smoothed estimates in order. -/
def push_sequence (buf : List RawGaze) : List RawGaze → List RawGaze × List RawGaze
  | [] => (buf, [])
  | e :: rest =>
    let r := buffer_push_emit buf e
    let rec_out := push_sequence r.1 rest
    (rec_out.1, r.2.toList ++ rec_out.2)

/-- The Boolean the freshness gate evaluates at line 69. -/
def gate_accepts (timestamp lct : ℚ) : Bool :=
  decide (timestamp - lct < 0.25)

/-- A per-subject frame is skipped (no estimator call, no push) exactly when
the tf lookup failed or the freshness gate rejected. -/
def gate_rejects : TfLookup → ℚ → Bool
  | TfLookup.err, _ => true
  | TfLookup.found lct _, t => !(gate_accepts t lct)

/-- A deterministic stand-in for the external collaborators, used to
evaluate the model on concrete inputs. -/
def ext0 : Externals where
  limit_yaw := fun q => (q.1, q.2.1, q.2.2.1)
  get_phi_theta_from_euler := fun e => (e.1, e.2.1)
  estimate_gaze_twoeyes := fun _ _ a => ⟨a.1, a.2⟩

/-! ### Helper lemmas about the buffer -/

theorem deque_append_length (m : Nat) (buf : List α) (x : α) :
    (deque_append m buf x).length = min (buf.length + 1) m := by
  simp [deque_append]
  omega

theorem deque_append_of_lt (buf : List α) (x : α) (h : buf.length < 5) :
    deque_append 5 buf x = buf ++ [x] := by
  unfold deque_append
  rw [show (buf ++ [x]).length - 5 = 0 by simp; omega, List.drop_zero]

theorem deque_append_of_full (buf : List α) (x : α) (h : buf.length = 5) :
    deque_append 5 buf x = buf.tail ++ [x] := by
  unfold deque_append
  rw [show (buf ++ [x]).length - 5 = 1 by simp [h]]
  rw [List.drop_append_of_le_length (by omega), List.drop_one]

theorem buffer_push_emit_fst (buf : List RawGaze) (e : RawGaze) :
    (buffer_push_emit buf e).1 = deque_append 5 buf e := by
  simp only [buffer_push_emit]
  split <;> rfl

theorem average_weights_length : average_weights.length = 5 := rfl

theorem buffer_push_emit_isSome (buf : List RawGaze) (e : RawGaze) :
    (buffer_push_emit buf e).2.isSome = true ↔ (deque_append 5 buf e).length = 5 := by
  by_cases h : (deque_append 5 buf e).length = 5
  · have h' : average_weights.length = (deque_append 5 buf e).length := by
      rw [average_weights_length, h]
    simp [buffer_push_emit, h', h]
  · have h' : ¬(average_weights.length = (deque_append 5 buf e).length) := by
      rw [average_weights_length]; exact fun hx => h hx.symm
    simp [buffer_push_emit, h', h]

theorem buffer_push_emit_isSome_of_le (buf : List RawGaze) (e : RawGaze)
    (h5 : buf.length ≤ 5) :
    (buffer_push_emit buf e).2.isSome = true ↔ 4 ≤ buf.length := by
  rw [buffer_push_emit_isSome, deque_append_length]
  omega

theorem buffer_push_emit_eq_some (buf : List RawGaze) (e g : RawGaze)
    (h : (buffer_push_emit buf e).2 = some g) :
    g = np_average_gaze average_weights (deque_append 5 buf e) ∧
      (deque_append 5 buf e).length = 5 := by
  simp only [buffer_push_emit] at h
  split at h
  · rename_i hc
    refine ⟨by simpa using h.symm, ?_⟩
    rw [← hc]
    rfl
  · simp at h

theorem push_sequence_fst_length (es : List RawGaze) :
    ∀ buf : List RawGaze, buf.length ≤ 5 →
      (push_sequence buf es).1.length ≤ 5 := by
  induction es with
  | nil => intro buf h; simpa [push_sequence] using h
  | cons e rest ih =>
    intro buf h
    simp only [push_sequence]
    apply ih
    rw [buffer_push_emit_fst, deque_append_length]
    omega

theorem push_sequence_snd_length (es : List RawGaze) :
    ∀ buf : List RawGaze, buf.length ≤ 5 →
      (push_sequence buf es).2.length = es.length - (4 - buf.length) := by
  induction es with
  | nil => intro buf _; simp [push_sequence]
  | cons e rest ih =>
    intro buf h
    have hlen : (buffer_push_emit buf e).1.length = min (buf.length + 1) 5 := by
      rw [buffer_push_emit_fst, deque_append_length]
    have hrec := ih (buffer_push_emit buf e).1 (by omega)
    have htl : (buffer_push_emit buf e).2.toList.length
        = if (buffer_push_emit buf e).2.isSome then 1 else 0 := by
      cases (buffer_push_emit buf e).2 <;> simp
    simp only [push_sequence, List.length_append, List.length_cons, hrec, htl]
    by_cases h4 : 4 ≤ buf.length
    · rw [if_pos ((buffer_push_emit_isSome_of_le buf e h).mpr h4)]
      omega
    · rw [if_neg (by rw [buffer_push_emit_isSome_of_le buf e h]; omega)]
      omega

/-! ### Helper lemmas about `compute_eye_gaze_estimation` -/

theorem compute_err (ext : Externals) (pok : Bool) (t : ℚ) (r l : Img)
    (buf : List RawGaze) :
    compute_eye_gaze_estimation ext pok TfLookup.err t r l buf
      = ⟨buf, none, [], []⟩ := rfl

theorem compute_stale (ext : Externals) (pok : Bool) (lct t : ℚ)
    (rot : ℚ × ℚ × ℚ × ℚ) (r l : Img) (buf : List RawGaze)
    (h : ¬(t - lct < 0.25)) :
    compute_eye_gaze_estimation ext pok (TfLookup.found lct rot) t r l buf
      = ⟨buf, none, [], []⟩ := by
  simp [compute_eye_gaze_estimation, h]

theorem compute_accept (ext : Externals) (pok : Bool) (lct t : ℚ)
    (rot : ℚ × ℚ × ℚ × ℚ) (r l : Img) (buf : List RawGaze)
    (h : t - lct < 0.25) :
    compute_eye_gaze_estimation ext pok (TfLookup.found lct rot) t r l buf =
      ⟨(buffer_push_emit buf (ext.estimate_gaze_twoeyes l r
          ((ext.get_phi_theta_from_euler (ext.limit_yaw rot)).2,
           (ext.get_phi_theta_from_euler (ext.limit_yaw rot)).1))).1,
       if pok then (buffer_push_emit buf (ext.estimate_gaze_twoeyes l r
          ((ext.get_phi_theta_from_euler (ext.limit_yaw rot)).2,
           (ext.get_phi_theta_from_euler (ext.limit_yaw rot)).1))).2 else none,
       [(l, r, ((ext.get_phi_theta_from_euler (ext.limit_yaw rot)).2,
                (ext.get_phi_theta_from_euler (ext.limit_yaw rot)).1))],
       if pok then (buffer_push_emit buf (ext.estimate_gaze_twoeyes l r
          ((ext.get_phi_theta_from_euler (ext.limit_yaw rot)).2,
           (ext.get_phi_theta_from_euler (ext.limit_yaw rot)).1))).2.toList
       else []⟩ := by
  simp only [compute_eye_gaze_estimation, if_pos h]
  cases hres : (buffer_push_emit buf (ext.estimate_gaze_twoeyes l r
      ((ext.get_phi_theta_from_euler (ext.limit_yaw rot)).2,
       (ext.get_phi_theta_from_euler (ext.limit_yaw rot)).1))).2 with
  | none => cases pok <;> simp [hres]
  | some g => cases pok <;> simp [hres]

theorem compute_ret_some (ext : Externals) (pok : Bool) (lk : TfLookup)
    (t : ℚ) (r l : Img) (buf : List RawGaze) (g : RawGaze)
    (h : (compute_eye_gaze_estimation ext pok lk t r l buf).ret = some g) :
    g = np_average_gaze average_weights
          (compute_eye_gaze_estimation ext pok lk t r l buf).buffer
      ∧ (compute_eye_gaze_estimation ext pok lk t r l buf).buffer.length = 5 := by
  cases lk with
  | err => simp [compute_err] at h
  | found lct rot =>
    by_cases hacc : t - lct < 0.25
    · rw [compute_accept ext pok lct t rot r l buf hacc] at h ⊢
      cases pok with
      | false => simp at h
      | true =>
        simp only [if_pos rfl] at h ⊢
        have := buffer_push_emit_eq_some buf _ g h
        rw [buffer_push_emit_fst]
        exact ⟨this.1, this.2⟩
    · rw [compute_stale ext pok lct t rot r l buf hacc] at h
      simp at h

/-- The weighted-average formula as the specification states it, over a full
window `[e0, e1, e2, e3, e4]` ordered oldest to newest with the weight
sequence `[0.1, 0.125, 0.175, 0.2, 0.4]` aligned so that weight index 0
multiplies the oldest sample: `Σ wi·ei / Σ wi`, componentwise. -/
def spec_weighted_avg5 (e0 e1 e2 e3 e4 : RawGaze) : RawGaze :=
  ⟨(0.1 * e0.theta + 0.125 * e1.theta + 0.175 * e2.theta
      + 0.2 * e3.theta + 0.4 * e4.theta) / (0.1 + 0.125 + 0.175 + 0.2 + 0.4),
   (0.1 * e0.phi + 0.125 * e1.phi + 0.175 * e2.phi
      + 0.2 * e3.phi + 0.4 * e4.phi) / (0.1 + 0.125 + 0.175 + 0.2 + 0.4)⟩

theorem np_average_gaze_five (a b c d e : RawGaze) :
    np_average_gaze average_weights [a, b, c, d, e]
      = spec_weighted_avg5 a b c d e := by
  simp only [np_average_gaze, np_weighted_average, average_weights,
    spec_weighted_avg5, List.map_cons, List.map_nil, List.zipWith_cons_cons,
    List.zipWith_nil_right, List.sum_cons, List.sum_nil, RawGaze.mk.injEq]
  constructor <;> ring_nf

/-! ### Helper lemmas about the registry -/

theorem reg_lookup_set_self (reg : Registry) (id : SubjectId)
    (b : List RawGaze) : reg_lookup (reg_set reg id b) id = some b := by
  induction reg with
  | nil => simp [reg_set, reg_lookup]
  | cons p rest ih =>
    by_cases h : p.1 = id
    · simp [reg_set, reg_lookup, h]
    · simp [reg_set, reg_lookup, h, ih]

theorem reg_lookup_set_ne (reg : Registry) (i j : SubjectId)
    (b : List RawGaze) (h : i ≠ j) :
    reg_lookup (reg_set reg j b) i = reg_lookup reg i := by
  induction reg with
  | nil =>
    have hj : j ≠ i := fun hx => h hx.symm
    simp [reg_set, reg_lookup, hj]
  | cons p rest ih =>
    by_cases hp : p.1 = j
    · have hpi : p.1 ≠ i := by rw [hp]; exact fun hx => h hx.symm
      have hji : j ≠ i := fun hx => h hx.symm
      simp [reg_set, reg_lookup, hp, hpi, hji]
    · by_cases hpi : p.1 = i
      · simp [reg_set, reg_lookup, hp, hpi, h]
      · simp [reg_set, reg_lookup, hp, hpi, ih]

theorem reg_set_self_of_lookup (reg : Registry) (id : SubjectId)
    (b : List RawGaze) (h : reg_lookup reg id = some b) :
    reg_set reg id b = reg := by
  induction reg with
  | nil => simp [reg_lookup] at h
  | cons p rest ih =>
    by_cases hp : p.1 = id
    · simp only [reg_lookup, if_pos hp, Option.some.injEq] at h
      simp only [reg_set, if_pos hp]
      have : (id, b) = p := by rw [← hp, ← h]
      rw [this]
    · simp only [reg_lookup, if_neg hp] at h
      simp [reg_set, hp, ih h]

theorem reg_set_append_of_none (reg : Registry) (id : SubjectId)
    (b : List RawGaze) (h : reg_lookup reg id = none) :
    reg_set reg id b = reg ++ [(id, b)] := by
  induction reg with
  | nil => simp [reg_set]
  | cons p rest ih =>
    by_cases hp : p.1 = id
    · simp [reg_lookup, hp] at h
    · simp only [reg_lookup, if_neg hp] at h
      simp [reg_set, hp, ih h]

theorem ensure_buffer_some (reg : Registry) (id : SubjectId)
    (b : List RawGaze) (h : reg_lookup reg id = some b) :
    ensure_buffer reg id = reg := by
  simp [ensure_buffer, h]

theorem ensure_buffer_none (reg : Registry) (id : SubjectId)
    (h : reg_lookup reg id = none) :
    ensure_buffer reg id = reg ++ [(id, [])] := by
  simp [ensure_buffer, h, reg_set_append_of_none reg id [] h]

theorem reg_lookup_ensure_self (reg : Registry) (id : SubjectId) :
    reg_lookup (ensure_buffer reg id) id
      = some ((reg_lookup reg id).getD []) := by
  cases hx : reg_lookup reg id with
  | none =>
    simp only [ensure_buffer, hx, Option.isNone_none, if_pos]
    rw [reg_lookup_set_self]
    rfl
  | some b =>
    rw [ensure_buffer_some reg id b hx, hx]
    rfl

theorem reg_lookup_ensure_ne (reg : Registry) (i j : SubjectId) (h : i ≠ j) :
    reg_lookup (ensure_buffer reg j) i = reg_lookup reg i := by
  unfold ensure_buffer
  split
  · exact reg_lookup_set_ne reg i j [] h
  · rfl

/-! ### Helper lemmas about the callback loop -/

theorem compute_rejected (ext : Externals) (pok : Bool) (lk : TfLookup)
    (t : ℚ) (r l : Img) (buf : List RawGaze)
    (h : gate_rejects lk t = true) :
    compute_eye_gaze_estimation ext pok lk t r l buf = ⟨buf, none, [], []⟩ := by
  cases lk with
  | err => rfl
  | found lct rot =>
    simp only [gate_rejects, gate_accepts, Bool.not_eq_true',
      decide_eq_false_iff_not] at h
    exact compute_stale ext pok lct t rot r l buf h

theorem step_reg_ne (ext : Externals) (pok : Bool)
    (lookup : SubjectId → TfLookup) (t : ℚ) (acc : CallbackResult)
    (entry : SubjectId × SubjectImages) (id : SubjectId) (h : id ≠ entry.1) :
    reg_lookup (image_callback_step ext pok lookup t acc entry).reg id
      = reg_lookup acc.reg id := by
  simp only [image_callback_step]
  rw [reg_lookup_set_ne _ _ _ _ h, reg_lookup_ensure_ne _ _ _ h]

theorem step_reg_self_isSome (ext : Externals) (pok : Bool)
    (lookup : SubjectId → TfLookup) (t : ℚ) (acc : CallbackResult)
    (entry : SubjectId × SubjectImages) :
    ((reg_lookup (image_callback_step ext pok lookup t acc entry).reg
        entry.1)).isSome = true := by
  simp only [image_callback_step]
  rw [reg_lookup_set_self]
  rfl

theorem step_isSome_mono (ext : Externals) (pok : Bool)
    (lookup : SubjectId → TfLookup) (t : ℚ) (acc : CallbackResult)
    (entry : SubjectId × SubjectImages) (id : SubjectId)
    (h : (reg_lookup acc.reg id).isSome = true) :
    ((reg_lookup (image_callback_step ext pok lookup t acc entry).reg
        id)).isSome = true := by
  by_cases hid : id = entry.1
  · rw [hid]; exact step_reg_self_isSome ext pok lookup t acc entry
  · rw [step_reg_ne ext pok lookup t acc entry id hid]; exact h

theorem step_gaze_imgs_mem (ext : Externals) (pok : Bool)
    (lookup : SubjectId → TfLookup) (t : ℚ) (acc : CallbackResult)
    (entry : SubjectId × SubjectImages) :
    ∀ q ∈ (image_callback_step ext pok lookup t acc entry).gaze_imgs,
      q ∈ acc.gaze_imgs ∨ q.1 = entry.1 := by
  intro q hq
  simp only [image_callback_step] at hq
  split at hq
  · rcases List.mem_append.mp hq with hmem | hmem
    · exact Or.inl hmem
    · right
      simp only [List.mem_singleton] at hmem
      rw [hmem]
  · exact Or.inl hq

theorem step_published_mem (ext : Externals) (pok : Bool)
    (lookup : SubjectId → TfLookup) (t : ℚ) (acc : CallbackResult)
    (entry : SubjectId × SubjectImages) :
    ∀ q ∈ (image_callback_step ext pok lookup t acc entry).published_gaze,
      q ∈ acc.published_gaze ∨ q.1 = entry.1 := by
  intro q hq
  simp only [image_callback_step] at hq
  rcases List.mem_append.mp hq with hmem | hmem
  · exact Or.inl hmem
  · right
    rcases List.mem_map.mp hmem with ⟨g, _, hg⟩
    rw [← hg]

theorem image_callback_step_rejected (ext : Externals) (pok : Bool)
    (lookup : SubjectId → TfLookup) (t : ℚ) (acc : CallbackResult)
    (entry : SubjectId × SubjectImages)
    (hrej : gate_rejects (lookup entry.1) t = true)
    (hsome : (reg_lookup acc.reg entry.1).isSome = true) :
    image_callback_step ext pok lookup t acc entry = acc := by
  obtain ⟨b, hb⟩ := Option.isSome_iff_exists.mp hsome
  simp only [image_callback_step, ensure_buffer_some acc.reg entry.1 b hb,
    hb, Option.getD_some,
    compute_rejected ext pok (lookup entry.1) t (Img.input entry.2.right)
      (Img.input entry.2.left) b hrej]
  simp [reg_set_self_of_lookup acc.reg entry.1 b hb]

theorem foldl_step_isSome_mono (ext : Externals) (pok : Bool)
    (lookup : SubjectId → TfLookup) (t : ℚ)
    (subs : List (SubjectId × SubjectImages)) :
    ∀ (acc : CallbackResult) (id : SubjectId),
      (reg_lookup acc.reg id).isSome = true →
      ((reg_lookup (subs.foldl (image_callback_step ext pok lookup t) acc).reg
          id)).isSome = true := by
  induction subs with
  | nil => intro acc id h; exact h
  | cons entry rest ih =>
    intro acc id h
    exact ih _ id (step_isSome_mono ext pok lookup t acc entry id h)

theorem foldl_step_mem_isSome (ext : Externals) (pok : Bool)
    (lookup : SubjectId → TfLookup) (t : ℚ)
    (subs : List (SubjectId × SubjectImages)) :
    ∀ (acc : CallbackResult) (id : SubjectId),
      id ∈ subs.map Prod.fst →
      ((reg_lookup (subs.foldl (image_callback_step ext pok lookup t) acc).reg
          id)).isSome = true := by
  induction subs with
  | nil => intro acc id h; simp at h
  | cons entry rest ih =>
    intro acc id h
    rcases List.mem_cons.mp h with h1 | h1
    · rw [List.foldl_cons]
      apply foldl_step_isSome_mono
      rw [h1]
      exact step_reg_self_isSome ext pok lookup t acc entry
    · exact ih _ id h1

theorem foldl_step_reg_not_mem (ext : Externals) (pok : Bool)
    (lookup : SubjectId → TfLookup) (t : ℚ)
    (subs : List (SubjectId × SubjectImages)) :
    ∀ (acc : CallbackResult) (id : SubjectId),
      id ∉ subs.map Prod.fst →
      reg_lookup (subs.foldl (image_callback_step ext pok lookup t) acc).reg id
        = reg_lookup acc.reg id := by
  induction subs with
  | nil => intro acc id _; rfl
  | cons entry rest ih =>
    intro acc id h
    have h1 : id ≠ entry.1 := fun hx => h (by simp [hx])
    have h2 : id ∉ rest.map Prod.fst := fun hx => h (by simp [hx])
    rw [List.foldl_cons, ih _ id h2, step_reg_ne ext pok lookup t acc entry id h1]

theorem foldl_step_rejected (ext : Externals) (pok : Bool)
    (lookup : SubjectId → TfLookup) (t : ℚ) (id : SubjectId) (b : List RawGaze)
    (hrej : gate_rejects (lookup id) t = true)
    (subs : List (SubjectId × SubjectImages)) :
    ∀ acc : CallbackResult,
      reg_lookup acc.reg id = some b →
      id ∉ acc.gaze_imgs.map Prod.fst →
      id ∉ acc.published_gaze.map Prod.fst →
      reg_lookup (subs.foldl (image_callback_step ext pok lookup t) acc).reg id
          = some b
        ∧ id ∉ (subs.foldl (image_callback_step ext pok lookup t)
            acc).gaze_imgs.map Prod.fst
        ∧ id ∉ (subs.foldl (image_callback_step ext pok lookup t)
            acc).published_gaze.map Prod.fst := by
  induction subs with
  | nil => intro acc h1 h2 h3; exact ⟨h1, h2, h3⟩
  | cons entry rest ih =>
    intro acc h1 h2 h3
    rw [List.foldl_cons]
    by_cases he : entry.1 = id
    · rw [image_callback_step_rejected ext pok lookup t acc entry
        (by rw [he]; exact hrej) (by rw [he, h1]; rfl)]
      exact ih acc h1 h2 h3
    · have hne : id ≠ entry.1 := fun hx => he hx.symm
      apply ih
      · rw [step_reg_ne ext pok lookup t acc entry id hne]; exact h1
      · intro hmem
        rcases List.mem_map.mp hmem with ⟨q, hq, hq1⟩
        rcases step_gaze_imgs_mem ext pok lookup t acc entry q hq with hc | hc
        · exact h2 (List.mem_map.mpr ⟨q, hc, hq1⟩)
        · rw [← hq1] at hne; exact hne hc
      · intro hmem
        rcases List.mem_map.mp hmem with ⟨q, hq, hq1⟩
        rcases step_published_mem ext pok lookup t acc entry q hq with hc | hc
        · exact h3 (List.mem_map.mpr ⟨q, hc, hq1⟩)
        · rw [← hq1] at hne; exact hne hc

/-! ### Claim theorems -/

/-- C1: for every push of a raw estimate into a subject's buffer, a smoothed
estimate is returned if and only if the buffer length after the insertion
equals W = 5; equivalently (for a buffer within capacity) iff the buffer
already held at least 4 samples, so the first emission happens on the 5th
push and every later push emits exactly once — over any push sequence the
number of emissions is the number of pushes past the warm-up.  The same
holds for the value `compute_eye_gaze_estimation` returns on an accepted
frame when publishing succeeds. -/
theorem gaze_smoothing_emission_iff_window_full
    (buf : List RawGaze) (e : RawGaze) (es : List RawGaze)
    (ext : Externals) (lct t : ℚ) (rot : ℚ × ℚ × ℚ × ℚ) (r l : Img)
    (h5 : buf.length ≤ 5) (hacc : t - lct < 0.25) :
    ((buffer_push_emit buf e).2.isSome = true
        ↔ (buffer_push_emit buf e).1.length = 5)
    ∧ ((buffer_push_emit buf e).2.isSome = true ↔ 4 ≤ buf.length)
    ∧ (push_sequence buf es).2.length = es.length - (4 - buf.length)
    ∧ ((compute_eye_gaze_estimation ext true (TfLookup.found lct rot) t r l
          buf).ret.isSome = true ↔ 4 ≤ buf.length) := by
  refine ⟨?_, buffer_push_emit_isSome_of_le buf e h5,
    push_sequence_snd_length es buf h5, ?_⟩
  · rw [buffer_push_emit_fst]
    exact buffer_push_emit_isSome buf e
  · rw [compute_accept ext true lct t rot r l buf hacc]
    simp only [if_pos]
    exact buffer_push_emit_isSome_of_le buf _ h5

theorem gaze_smoothing_emission_iff_window_full_witness :
    (buffer_push_emit [] ⟨1, 2⟩).2.isSome = true
      ↔ 4 ≤ ([] : List RawGaze).length :=
  (gaze_smoothing_emission_iff_window_full [] ⟨1, 2⟩ [] ext0 0 0 (0, 0, 0, 0)
    (Img.raw 0) (Img.raw 1) (by simp) (by norm_num)).2.1

/-- C2: whenever a smoothed estimate is emitted, it equals the weighted
average `Σ wi·ei / Σ wi` computed componentwise on theta and phi over the
buffer ordered oldest to newest, with the weight sequence
`[0.1, 0.125, 0.175, 0.2, 0.4]` and weight index 0 on the oldest sample. -/
theorem smoothed_estimate_is_spec_weighted_average (ext : Externals)
    (pok : Bool) (lk : TfLookup) (t : ℚ) (r l : Img) (buf : List RawGaze)
    (g e0 e1 e2 e3 e4 : RawGaze)
    (hret : (compute_eye_gaze_estimation ext pok lk t r l buf).ret = some g)
    (hbuf : (compute_eye_gaze_estimation ext pok lk t r l buf).buffer
      = [e0, e1, e2, e3, e4]) :
    g = spec_weighted_avg5 e0 e1 e2 e3 e4
    ∧ average_weights = [0.1, 0.125, 0.175, 0.2, 0.4] := by
  refine ⟨?_, rfl⟩
  have h := compute_ret_some ext pok lk t r l buf g hret
  rw [h.1, hbuf, np_average_gaze_five]

theorem smoothed_estimate_is_spec_weighted_average_witness :
    (⟨4/5, 2/5⟩ : RawGaze)
      = spec_weighted_avg5 ⟨0, 0⟩ ⟨0, 0⟩ ⟨0, 0⟩ ⟨0, 0⟩ ⟨2, 1⟩ :=
  (smoothed_estimate_is_spec_weighted_average ext0 true
    (TfLookup.found 0 (1, 2, 0, 0)) 0 (Img.raw 0) (Img.raw 1)
    [⟨0, 0⟩, ⟨0, 0⟩, ⟨0, 0⟩, ⟨0, 0⟩] ⟨4/5, 2/5⟩ ⟨0, 0⟩ ⟨0, 0⟩ ⟨0, 0⟩ ⟨0, 0⟩ ⟨2, 1⟩
    (by norm_num [compute_eye_gaze_estimation, ext0, buffer_push_emit,
      deque_append, average_weights, np_average_gaze, np_weighted_average])
    (by norm_num [compute_eye_gaze_estimation, ext0, buffer_push_emit,
      deque_append, average_weights])).1

/-- C3: the correspondence gate accepts exactly when
`t_frame - t_pose < 0.25` (witnessed by whether the estimator gets
invoked), and at the boundary `t_frame - t_pose = 0.25` the frame is
rejected as stale: the method returns nothing and leaves the buffer
unchanged. -/
theorem freshness_gate_strict_inequality (ext : Externals) (pok : Bool)
    (t lct : ℚ) (rot : ℚ × ℚ × ℚ × ℚ) (r l : Img) (buf : List RawGaze) :
    ((compute_eye_gaze_estimation ext pok (TfLookup.found lct rot) t r l
        buf).estimator_calls ≠ [] ↔ t - lct < 0.25)
    ∧ (t - lct = 0.25 →
        compute_eye_gaze_estimation ext pok (TfLookup.found lct rot) t r l buf
          = ⟨buf, none, [], []⟩) := by
  constructor
  · by_cases hacc : t - lct < 0.25
    · rw [compute_accept ext pok lct t rot r l buf hacc]
      simp [hacc]
    · rw [compute_stale ext pok lct t rot r l buf hacc]
      simp [hacc]
  · intro hb
    exact compute_stale ext pok lct t rot r l buf (by rw [hb]; exact lt_irrefl _)

theorem freshness_gate_strict_inequality_witness :
    compute_eye_gaze_estimation ext0 true (TfLookup.found 0 (0, 0, 0, 0))
        (1/4) (Img.raw 0) (Img.raw 1) []
      = ⟨[], none, [], []⟩ :=
  (freshness_gate_strict_inequality ext0 true (1/4) 0 (0, 0, 0, 0)
    (Img.raw 0) (Img.raw 1) []).2 (by norm_num)

/-- C5: the buffer never holds more than W = 5 samples over any sequence of
pushes, and a push into a full buffer evicts exactly the oldest element,
keeping the remaining four in their relative order, while a push into a
non-full buffer just appends. -/
theorem buffer_bounded_fifo_eviction (buf : List RawGaze) (es : List RawGaze)
    (e : RawGaze) (h : buf.length ≤ 5) :
    (push_sequence buf es).1.length ≤ 5
    ∧ (buf.length = 5 → deque_append 5 buf e = buf.tail ++ [e])
    ∧ (buf.length < 5 → deque_append 5 buf e = buf ++ [e]) :=
  ⟨push_sequence_fst_length es buf h,
   fun h5 => deque_append_of_full buf e h5,
   fun h5 => deque_append_of_lt buf e h5⟩

theorem buffer_bounded_fifo_eviction_witness :
    deque_append 5 [⟨1, 1⟩, ⟨2, 2⟩, ⟨3, 3⟩, ⟨4, 4⟩, ⟨5, 5⟩] ⟨9, 9⟩
      = ([⟨1, 1⟩, ⟨2, 2⟩, ⟨3, 3⟩, ⟨4, 4⟩, ⟨5, 5⟩] : List RawGaze).tail
          ++ [⟨9, 9⟩] :=
  (buffer_bounded_fifo_eviction [⟨1, 1⟩, ⟨2, 2⟩, ⟨3, 3⟩, ⟨4, 4⟩, ⟨5, 5⟩] []
    ⟨9, 9⟩ (by simp)).2.1 (by simp)

/-- C6: pushing W + 1 = 6 known raw estimates into a fresh buffer yields
exactly two emissions: the weighted averages over the windows
`[e0..e4]` and `[e1..e5]`, and leaves the buffer holding `[e1..e5]`. -/
theorem sliding_window_two_emissions (e0 e1 e2 e3 e4 e5 : RawGaze) :
    push_sequence [] [e0, e1, e2, e3, e4, e5]
      = ([e1, e2, e3, e4, e5],
         [spec_weighted_avg5 e0 e1 e2 e3 e4,
          spec_weighted_avg5 e1 e2 e3 e4 e5]) := by
  rw [← np_average_gaze_five e0 e1 e2 e3 e4,
    ← np_average_gaze_five e1 e2 e3 e4 e5]
  simp [push_sequence, buffer_push_emit, deque_append, average_weights_length]

/-- C7: when a subject is skipped — the tf lookup failed or the pose is
stale (`t_frame - t_pose ≥ 0.25`, e.g. a pose 0.3 s old) — the method
returns nothing, the buffer is left completely unchanged, and the external
gaze estimator is not invoked. -/
theorem skipped_subject_buffer_untouched (ext : Externals) (pok : Bool)
    (t lct : ℚ) (rot : ℚ × ℚ × ℚ × ℚ) (r l : Img) (buf : List RawGaze)
    (hstale : 0.25 ≤ t - lct) :
    compute_eye_gaze_estimation ext pok TfLookup.err t r l buf
        = ⟨buf, none, [], []⟩
    ∧ compute_eye_gaze_estimation ext pok (TfLookup.found lct rot) t r l buf
        = ⟨buf, none, [], []⟩ :=
  ⟨compute_err ext pok t r l buf,
   compute_stale ext pok lct t rot r l buf (not_lt.mpr hstale)⟩

theorem skipped_subject_buffer_untouched_witness :
    compute_eye_gaze_estimation ext0 true
        (TfLookup.found 0 (0, 0, 0, 0)) (3/10) (Img.raw 0) (Img.raw 1)
        [⟨1, 1⟩]
      = ⟨[⟨1, 1⟩], none, [], []⟩ :=
  (skipped_subject_buffer_untouched ext0 true (3/10) 0 (0, 0, 0, 0)
    (Img.raw 0) (Img.raw 1) [⟨1, 1⟩] (by norm_num)).2

theorem compute_accept_calls (ext : Externals) (pok : Bool) (lct t : ℚ)
    (rot : ℚ × ℚ × ℚ × ℚ) (r l : Img) (buf : List RawGaze)
    (hacc : t - lct < 0.25) :
    (compute_eye_gaze_estimation ext pok (TfLookup.found lct rot) t r l
        buf).estimator_calls
      = [(l, r, ((ext.get_phi_theta_from_euler (ext.limit_yaw rot)).2,
                 (ext.get_phi_theta_from_euler (ext.limit_yaw rot)).1))] := by
  rw [compute_accept ext pok lct t rot r l buf hacc]

/-- C4 counterexample: on a concrete accepted frame whose right crop is
`Img.raw 10` and left crop is `Img.raw 20`, the single invocation of the
external estimator receives the (preprocessed) LEFT crop as its first
argument and the RIGHT crop as its second — not (right, left) as claimed;
the two argument values are distinct, so the order is observably wrong. -/
theorem estimator_right_left_order_counterexample :
    (image_callback ext0 true (fun _ => TfLookup.found 0 (0, 0, 0, 0)) 0
        [(0, ⟨Img.raw 10, Img.raw 20⟩)] []).estimator_calls
      = [(0, (Img.input (Img.raw 20), Img.input (Img.raw 10), (0, 0)))]
    ∧ Img.input (Img.raw 20) ≠ Img.input (Img.raw 10) := by
  constructor
  · norm_num [image_callback, image_callback_step, ensure_buffer, reg_lookup,
      reg_set, compute_eye_gaze_estimation, buffer_push_emit, deque_append,
      average_weights, np_average_gaze, np_weighted_average, ext0]
  · decide

/-- C4 (amended): for every subject whose gate check passes, the external
two-eye gaze estimator is invoked exactly once, with arguments in the order
(left crop, right crop, head-relative theta/phi), to obtain the raw gaze
estimate for that frame. -/
theorem estimator_invoked_left_right_theta_phi (ext : Externals) (pok : Bool)
    (lookup : SubjectId → TfLookup) (t : ℚ) (acc : CallbackResult)
    (id : SubjectId) (s : SubjectImages) (lct : ℚ) (rot : ℚ × ℚ × ℚ × ℚ)
    (hlk : lookup id = TfLookup.found lct rot) (hacc : t - lct < 0.25) :
    (image_callback_step ext pok lookup t acc (id, s)).estimator_calls
      = acc.estimator_calls
        ++ [(id, (Img.input s.left, Img.input s.right,
              ((ext.get_phi_theta_from_euler (ext.limit_yaw rot)).2,
               (ext.get_phi_theta_from_euler (ext.limit_yaw rot)).1)))] := by
  have hcalls := compute_accept_calls ext pok lct t rot (Img.input s.right)
    (Img.input s.left)
    ((reg_lookup (ensure_buffer acc.reg id) id).getD []) hacc
  simp [image_callback_step, hlk, hcalls]

theorem estimator_invoked_left_right_theta_phi_witness :
    (image_callback_step ext0 true (fun _ => TfLookup.found 0 (0, 0, 0, 0)) 0
        ⟨[], [], [], []⟩ (0, ⟨Img.raw 10, Img.raw 20⟩)).estimator_calls
      = (⟨[], [], [], []⟩ : CallbackResult).estimator_calls
        ++ [(0, (Img.input (Img.raw 20), Img.input (Img.raw 10),
              ((ext0.get_phi_theta_from_euler
                  (ext0.limit_yaw (0, 0, 0, 0))).2,
               (ext0.get_phi_theta_from_euler
                  (ext0.limit_yaw (0, 0, 0, 0))).1)))] :=
  estimator_invoked_left_right_theta_phi ext0 true
    (fun _ => TfLookup.found 0 (0, 0, 0, 0)) 0 ⟨[], [], [], []⟩ 0
    ⟨Img.raw 10, Img.raw 20⟩ 0 (0, 0, 0, 0) rfl (by norm_num)

/-- C8: a registry entry is created exactly once per subject id — on first
reference a fresh empty buffer is appended, on any later reference the
existing buffer is returned with the registry unchanged — and entries are
never removed: an existing entry is still present after any callback, and
any id appearing in a batch has an entry after the callback. -/
theorem registry_created_once_persists (reg : Registry) (id : SubjectId)
    (ext : Externals) (pok : Bool) (lookup : SubjectId → TfLookup) (t : ℚ)
    (subs : List (SubjectId × SubjectImages)) :
    (reg_lookup reg id = none →
        ensure_buffer reg id = reg ++ [(id, [])]
        ∧ reg_lookup (ensure_buffer reg id) id = some [])
    ∧ (∀ b, reg_lookup reg id = some b →
        ensure_buffer reg id = reg
        ∧ reg_lookup (ensure_buffer reg id) id = some b)
    ∧ ((reg_lookup reg id).isSome = true →
        (reg_lookup (image_callback ext pok lookup t subs reg).reg
            id).isSome = true)
    ∧ (id ∈ subs.map Prod.fst →
        (reg_lookup (image_callback ext pok lookup t subs reg).reg
            id).isSome = true) := by
  refine ⟨?_, ?_, ?_, ?_⟩
  · intro h
    exact ⟨ensure_buffer_none reg id h,
      by rw [reg_lookup_ensure_self, h]; rfl⟩
  · intro b h
    exact ⟨ensure_buffer_some reg id b h,
      by rw [reg_lookup_ensure_self, h]; rfl⟩
  · intro h
    exact foldl_step_isSome_mono ext pok lookup t subs _ id h
  · intro h
    exact foldl_step_mem_isSome ext pok lookup t subs _ id h

theorem registry_created_once_persists_witness :
    ensure_buffer [] 7 = [] ++ [(7, [])]
    ∧ reg_lookup (ensure_buffer [] 7) 7 = some [] :=
  (registry_created_once_persists [] 7 ext0 true (fun _ => TfLookup.err) 0
    []).1 rfl

/-- C9: processing a batch never touches a subject absent from it — its
registry entry is bitwise unchanged — and a subject whose gate rejects in
this frame keeps its buffer exactly as before and does not appear among the
visualization strips nor among the published gaze transforms. -/
theorem per_subject_isolation (ext : Externals) (pok : Bool)
    (lookup : SubjectId → TfLookup) (t : ℚ)
    (subs : List (SubjectId × SubjectImages)) (reg : Registry)
    (id : SubjectId) :
    (id ∉ subs.map Prod.fst →
        reg_lookup (image_callback ext pok lookup t subs reg).reg id
          = reg_lookup reg id)
    ∧ (gate_rejects (lookup id) t = true → ∀ b, reg_lookup reg id = some b →
        reg_lookup (image_callback ext pok lookup t subs reg).reg id = some b
        ∧ id ∉ (image_callback ext pok lookup t subs
            reg).gaze_imgs.map Prod.fst
        ∧ id ∉ (image_callback ext pok lookup t subs
            reg).published_gaze.map Prod.fst) := by
  constructor
  · intro h
    exact foldl_step_reg_not_mem ext pok lookup t subs _ id h
  · intro hrej b hb
    exact foldl_step_rejected ext pok lookup t id b hrej subs
      ⟨reg, [], [], []⟩ hb (by simp) (by simp)

theorem per_subject_isolation_witness :
    reg_lookup (image_callback ext0 true
        (fun i => if i = 1 then TfLookup.found 0 (0, 0, 0, 0)
                  else TfLookup.err) 0
        [(1, ⟨Img.raw 0, Img.raw 1⟩), (2, ⟨Img.raw 2, Img.raw 3⟩)]
        [(2, [⟨1, 1⟩])]).reg 2
      = some [⟨1, 1⟩] :=
  ((per_subject_isolation ext0 true
      (fun i => if i = 1 then TfLookup.found 0 (0, 0, 0, 0)
                else TfLookup.err) 0
      [(1, ⟨Img.raw 0, Img.raw 1⟩), (2, ⟨Img.raw 2, Img.raw 3⟩)]
      [(2, [⟨1, 1⟩])] 2).2 rfl [⟨1, 1⟩] (by simp [reg_lookup])).1

theorem mem_deque_append_self (buf : List RawGaze) (x : RawGaze) :
    x ∈ deque_append 5 buf x := by
  unfold deque_append
  rw [List.drop_append_of_le_length (by simp)]
  exact List.mem_append.mpr (Or.inr (List.mem_singleton.mpr rfl))

theorem mem_tail_deque_append (buf : List RawGaze) (x : RawGaze)
    (h4 : 4 ≤ buf.length) :
    x ∈ (deque_append 5 buf x).tail := by
  unfold deque_append
  rw [← List.drop_one, List.drop_drop]
  rw [List.drop_append_of_le_length (by simp; omega)]
  exact List.mem_append.mpr (Or.inr (List.mem_singleton.mpr rfl))

/-- C10: when the window-filling push succeeds but publishing the smoothed
gaze hits the closed-topic error, the method returns nothing (so no
visualization strip is produced for that subject this frame), yet the raw
estimate pushed this frame stays in the buffer — the mutation is not rolled
back — and on the next accepted push (publishing working again) the emitted
window still contains that sample. -/
theorem publish_failure_retains_sample (ext : Externals)
    (lookup : SubjectId → TfLookup) (t lct : ℚ) (rot : ℚ × ℚ × ℚ × ℚ)
    (reg : Registry) (id : SubjectId) (s : SubjectImages)
    (buf : List RawGaze)
    (hlk : lookup id = TfLookup.found lct rot) (hacc : t - lct < 0.25)
    (hbuf : reg_lookup reg id = some buf)
    (hlen4 : 4 ≤ buf.length) (hlen5 : buf.length ≤ 5) :
    (compute_eye_gaze_estimation ext false (TfLookup.found lct rot) t
        (Img.input s.right) (Img.input s.left) buf).ret = none
    ∧ (compute_eye_gaze_estimation ext false (TfLookup.found lct rot) t
        (Img.input s.right) (Img.input s.left) buf).buffer
      = deque_append 5 buf (ext.estimate_gaze_twoeyes (Img.input s.left)
          (Img.input s.right)
          ((ext.get_phi_theta_from_euler (ext.limit_yaw rot)).2,
           (ext.get_phi_theta_from_euler (ext.limit_yaw rot)).1))
    ∧ ext.estimate_gaze_twoeyes (Img.input s.left) (Img.input s.right)
        ((ext.get_phi_theta_from_euler (ext.limit_yaw rot)).2,
         (ext.get_phi_theta_from_euler (ext.limit_yaw rot)).1)
      ∈ (compute_eye_gaze_estimation ext false (TfLookup.found lct rot) t
          (Img.input s.right) (Img.input s.left) buf).buffer
    ∧ (compute_eye_gaze_estimation ext false (TfLookup.found lct rot) t
        (Img.input s.right) (Img.input s.left) buf).published_gaze = []
    ∧ (image_callback ext false lookup t [(id, s)] reg).gaze_imgs = []
    ∧ (∀ lct2 rot2 t2 r2 l2, t2 - lct2 < 0.25 →
        ext.estimate_gaze_twoeyes (Img.input s.left) (Img.input s.right)
            ((ext.get_phi_theta_from_euler (ext.limit_yaw rot)).2,
             (ext.get_phi_theta_from_euler (ext.limit_yaw rot)).1)
          ∈ (compute_eye_gaze_estimation ext true (TfLookup.found lct2 rot2)
              t2 r2 l2
              (compute_eye_gaze_estimation ext false (TfLookup.found lct rot)
                t (Img.input s.right) (Img.input s.left) buf).buffer).buffer
        ∧ ((compute_eye_gaze_estimation ext true (TfLookup.found lct2 rot2)
              t2 r2 l2
              (compute_eye_gaze_estimation ext false (TfLookup.found lct rot)
                t (Img.input s.right) (Img.input s.left)
                buf).buffer).ret).isSome = true) := by
  have hc := compute_accept ext false lct t rot (Img.input s.right)
    (Img.input s.left) buf hacc
  have hret : (compute_eye_gaze_estimation ext false (TfLookup.found lct rot)
      t (Img.input s.right) (Img.input s.left) buf).ret = none := by
    rw [hc]
    rfl
  have hbuffer : (compute_eye_gaze_estimation ext false
      (TfLookup.found lct rot) t (Img.input s.right) (Img.input s.left)
      buf).buffer
      = deque_append 5 buf (ext.estimate_gaze_twoeyes (Img.input s.left)
          (Img.input s.right)
          ((ext.get_phi_theta_from_euler (ext.limit_yaw rot)).2,
           (ext.get_phi_theta_from_euler (ext.limit_yaw rot)).1)) := by
    rw [hc]
    exact buffer_push_emit_fst buf _
  have hblen : (compute_eye_gaze_estimation ext false
      (TfLookup.found lct rot) t (Img.input s.right) (Img.input s.left)
      buf).buffer.length = 5 := by
    rw [hbuffer, deque_append_length]
    omega
  refine ⟨hret, hbuffer, ?_, ?_, ?_, ?_⟩
  · rw [hbuffer]
    exact mem_deque_append_self buf _
  · rw [hc]
    rfl
  · simp only [image_callback, List.foldl_cons, List.foldl_nil,
      image_callback_step, ensure_buffer_some reg id buf hbuf, hbuf,
      Option.getD_some, hlk, hret]
  · intro lct2 rot2 t2 r2 l2 hacc2
    have hc2 := compute_accept ext true lct2 t2 rot2 r2 l2
      (compute_eye_gaze_estimation ext false (TfLookup.found lct rot) t
        (Img.input s.right) (Img.input s.left) buf).buffer hacc2
    constructor
    · rw [hc2]
      rw [buffer_push_emit_fst, deque_append_of_full _ _ hblen]
      apply List.mem_append.mpr
      left
      rw [hbuffer]
      exact mem_tail_deque_append buf _ hlen4
    · rw [hc2]
      simp only [if_pos]
      rw [buffer_push_emit_isSome_of_le _ _ (le_of_eq hblen)]
      omega

theorem publish_failure_retains_sample_witness :
    (compute_eye_gaze_estimation ext0 false (TfLookup.found 0 (0, 0, 0, 0))
        0 (Img.input (Img.raw 0)) (Img.input (Img.raw 1))
        [⟨0, 0⟩, ⟨0, 0⟩, ⟨0, 0⟩, ⟨0, 0⟩]).ret = none :=
  (publish_failure_retains_sample ext0 (fun _ => TfLookup.found 0 (0, 0, 0, 0))
    0 0 (0, 0, 0, 0) [(3, [⟨0, 0⟩, ⟨0, 0⟩, ⟨0, 0⟩, ⟨0, 0⟩])] 3
    ⟨Img.raw 0, Img.raw 1⟩ [⟨0, 0⟩, ⟨0, 0⟩, ⟨0, 0⟩, ⟨0, 0⟩] rfl (by norm_num)
    (by simp [reg_lookup]) (by simp) (by simp)).1
